import Mathlib

/-!
Verification development for `nwgeom_out2xyz.py`, a script that extracts
atomic-geometry blocks from NWChem output files and writes them in the XYZ
format.

Modelling conventions of the shallow embedding:
* an input file is a list of its lines (strings without the trailing newline);
* Python `float` values are modelled by exact rationals (`ℚ`); the arithmetic
  performed by the script (multiplication by a conversion factor) is exact on
  the rationals, and `pyFloatRepr` renders the minimal decimal expansion,
  which agrees with Python float `repr` on terminating decimals of the sizes
  the script handles;
* `sys.exit()` and an uncaught `ValueError` are modelled by an `Except Abort`
  result that terminates the whole run;
* the file system is a map from file names to the contents written so far.
-/

namespace NWGeom

/-- The ways the script can terminate early.
`badUnits` models the `sys.exit()` at line 60 (unknown units),
`badTokens` models the `sys.exit()` at line 75 (token count not 0 or 6),
`badFloat` models an uncaught `ValueError` raised by `float()` at lines 68-70. -/
inductive Abort where
  | badUnits
  | badTokens
  | badFloat
deriving DecidableEq, Repr

/-- Value of `"".join(...)`-style accumulation of digits: Python `int` of a
digit run, used by the model of `float()`. -/
def digitsToNat (ds : List Char) : Nat :=
  ds.foldl (fun a c => a * 10 + (c.toNat - 48)) 0

/-- Exponent part of the model of Python `float()`: `e`/`E` followed by an
optional sign and at least one digit. -/
def parseExp (mant : ℚ) (cs : List Char) : Option ℚ :=
  match cs with
  | '+' :: ds => if ds ≠ [] ∧ ds.all Char.isDigit then some (mant * (10 : ℚ) ^ digitsToNat ds) else none
  | '-' :: ds => if ds ≠ [] ∧ ds.all Char.isDigit then some (mant / (10 : ℚ) ^ digitsToNat ds) else none
  | ds => if ds ≠ [] ∧ ds.all Char.isDigit then some (mant * (10 : ℚ) ^ digitsToNat ds) else none

/-- Unsigned part of the model of Python `float()`: digits with an optional
fractional part and an optional exponent; at least one mantissa digit is
required.  (`inf`, `nan` and underscore separators are not modelled; no input
handled by the claims uses them.) -/
def parseUnsigned (cs : List Char) : Option ℚ :=
  let intPart := cs.takeWhile Char.isDigit
  let rest1 := cs.dropWhile Char.isDigit
  let fracPart :=
    match rest1 with
    | '.' :: r => r.takeWhile Char.isDigit
    | _ => []
  let rest2 :=
    match rest1 with
    | '.' :: r => r.dropWhile Char.isDigit
    | _ => rest1
  if intPart = [] ∧ fracPart = [] then none
  else
    let mant : ℚ := (digitsToNat intPart : ℚ) + (digitsToNat fracPart : ℚ) / (10 : ℚ) ^ fracPart.length
    match rest2 with
    | [] => some mant
    | 'e' :: r => parseExp mant r
    | 'E' :: r => parseExp mant r
    | _ => none

/-- Model of Python `float(s)`: surrounding whitespace is stripped, then an
optional sign and an unsigned decimal with optional exponent.  `none` models
the `ValueError` raised on anything else. -/
def parsePyFloat (s : String) : Option ℚ :=
  match s.trim.toList with
  | '+' :: rest => parseUnsigned rest
  | '-' :: rest => (parseUnsigned rest).map (fun q => -q)
  | cs => parseUnsigned cs

/-- Left-pad a digit string with zeros to the given width
(used to render the fractional digits of a decimal expansion). -/
def zeroPad (width : Nat) (s : String) : String :=
  String.mk (List.replicate (width - s.length) '0') ++ s

/-- Decimal rendering of a nonnegative rational: the minimal terminating
decimal expansion with at least one fractional digit, which is what Python
`repr` prints for a float whose value is a short terminating decimal
(`1.0`, `0.5`, `10.25`, ...).  Rationals without a terminating expansion are
truncated to 17 fractional digits (Python would print a 17-significant-digit
shortest representation of the nearest double; no claim evaluates this case). -/
def pyFloatReprNonneg (q : ℚ) : String :=
  let e := (((List.range 18).find? (fun e => (q * (10 : ℚ) ^ e).den = 1)).getD 17)
  let scaled := q * (10 : ℚ) ^ e
  let m := scaled.num.toNat / scaled.den
  if e = 0 then toString m ++ ".0"
  else toString (m / 10 ^ e) ++ "." ++ zeroPad e (toString (m % 10 ^ e))

/-- Model of Python `repr` of a float (as used by the f-strings at lines 71
and 111-114), on the exact rational value. -/
def pyFloatRepr (q : ℚ) : String :=
  if q < 0 then "-" ++ pyFloatReprNonneg (-q) else pyFloatReprNonneg q

/-- Model of Python `line.split()` (line 62): split on runs of whitespace,
discarding empty pieces. -/
def pySplit (line : String) : List String :=
  ((line.toList.splitOnP Char.isWhitespace).map (fun cs => String.mk cs)).filter (fun t => t ≠ "")

/-- Model of Python `s.split(sep)` for a single-character separator
(lines 163-164): empty pieces are kept. -/
def pySplitOn (s : String) (sep : Char) : List String :=
  (s.toList.splitOnP (fun c => c = sep)).map (fun cs => String.mk cs)

/-- The unit-conversion factor chosen at lines 52-60 of `Geometry.__init__`:
`none` models the `sys.exit()` on an unknown unit string. -/
def unitFactor (units : String) : Option ℚ :=
  if units = "au" then some (1.0 / 1.889725989)
  else if units = "angstrom" then some 1.0
  else if units = "nm" then some 10
  else none

/-- The atom line built at line 71: `f"{tokens[1]} {xx} {yy} {zz}"` where the
coordinates have already been multiplied by the unit factor. -/
def formatAtom (sym : String) (x y z : ℚ) : String :=
  sym ++ " " ++ pyFloatRepr x ++ " " ++ pyFloatRepr y ++ " " ++ pyFloatRepr z

/-- The `Geometry` class (lines 32-114): source file name, 1-based instance
count within the source file, the two optional metadata fields, and the
formatted atom lines. -/
structure Geometry where
  source : String
  count : Nat
  sectionLabel : Option String
  lattice : Option String
  coords : List String
deriving DecidableEq, Repr

/-- Python truthiness of an optional string, as tested by
`if self.lattice:` at line 108: `None` and `""` are falsy. -/
def pyTruthy : Option String → Bool
  | none => false
  | some s => s ≠ ""

/-- `Geometry.write` (lines 94-114): the text written to the file handle.
The count line, the comment line and each atom line are each followed by
exactly one newline; the comment is empty unless `self.lattice` is truthy. -/
def Geometry.write (g : Geometry) : String :=
  (toString g.coords.length ++ "\n")
  ++ ((if pyTruthy g.lattice then
        "Lattice=" ++ g.lattice.getD "" ++ " Properties=species:S:1:pos:R:3"
      else "") ++ "\n")
  ++ String.join (g.coords.map (fun atom => atom ++ "\n"))

/-- State of the scan over one file's lines.  The Python code expresses this
with nested loops sharing the file iterator (`append_geometries` lines
133-154, `skip_lines` lines 127-131, `Geometry.__init__` lines 45-76); here
it is the mode of a single line-by-line state machine:
* `scan` — the `for line in fp` loop of `append_geometries`, looking for
  marker lines;
* `skip n units` — inside `skip_lines(fp, 3)` with `n` lines still to skip,
  remembering the unit string for the upcoming `Geometry` constructor;
* `block fac coords` — inside the `for line in fp` loop of
  `Geometry.__init__` with conversion factor `fac` and the atom lines
  accumulated so far. -/
inductive Mode where
  | scan
  | skip (n : Nat) (units : String)
  | block (fac : ℚ) (coords : List String)

/-- One pass of `append_geometries` over the lines of a file, threading the
per-file geometry counter `c` and the accumulated geometry list `acc`.
End of stream: in `skip` mode the `Geometry` constructor still runs (its
units check, then a loop that reads nothing), in `block` mode the geometry
under construction is appended (lines 61-76 on EOF). -/
def extract (f : String) : Nat → List Geometry → Mode → List String → Except Abort (List Geometry)
  | _, acc, .scan, [] => .ok acc
  | c, acc, .skip _ units, [] =>
      match unitFactor units with
      | none => .error .badUnits
      | some _ => .ok (acc ++ [⟨f, c, none, none, []⟩])
  | c, acc, .block _ coords, [] => .ok (acc ++ [⟨f, c, none, none, coords⟩])
  | c, acc, .scan, line :: rest =>
      if line.trim.startsWith "Output coordinates in angstroms" then
        extract f (c + 1) acc (.skip 3 "angstrom") rest
      else if line.trim.startsWith "Output coordinates in a.u." then
        extract f (c + 1) acc (.skip 3 "au") rest
      else
        extract f c acc .scan rest
  | c, acc, .skip n units, _ :: rest =>
      if n - 1 = 0 then
        match unitFactor units with
        | none => .error .badUnits
        | some fac => extract f c acc (.block fac []) rest
      else
        extract f c acc (.skip (n - 1) units) rest
  | c, acc, .block fac coords, line :: rest =>
      let tokens := pySplit line
      if tokens.length = 0 then
        extract f c (acc ++ [⟨f, c, none, none, coords⟩]) .scan rest
      else if tokens.length = 6 then
        match parsePyFloat (tokens.getD 3 ""), parsePyFloat (tokens.getD 4 ""),
              parsePyFloat (tokens.getD 5 "") with
        | some x, some y, some z =>
            extract f c acc
              (.block fac (coords ++ [formatAtom (tokens.getD 1 "") (x * fac) (y * fac) (z * fac)]))
              rest
        | _, _, _ => .error .badFloat
      else .error .badTokens

/-- `append_geometries(geom_in, filename, fp)` (lines 133-154): the per-file
counter starts at 0 and the scan starts in marker-search mode. -/
def appendGeometries (geomIn : List Geometry) (filename : String) (lines : List String) :
    Except Abort (List Geometry) :=
  extract filename 0 geomIn .scan lines

/-- The loop of `run_extractor` (lines 116-125) over the remaining files,
threading the geometry list. -/
def runExtractorAux (geoms : List Geometry) :
    List (String × List String) → Except Abort (List Geometry)
  | [] => .ok geoms
  | (name, lines) :: rest =>
      match appendGeometries geoms name lines with
      | .error a => .error a
      | .ok geoms' => runExtractorAux geoms' rest

/-- `run_extractor(files)` (lines 116-125), with each file given as its name
paired with its lines. -/
def runExtractor (files : List (String × List String)) : Except Abort (List Geometry) :=
  runExtractorAux [] files

/-- `get_basename` (lines 156-165): split the path on `/`, take the last
segment, split it on `.`, take the first piece. -/
def getBasename (filename : String) : String :=
  let path := pySplitOn filename '/'
  let basename := pySplitOn (path.getLastD "") '.'
  basename.headD ""

/-- The file system: a map from file names to the content written so far
(`none` for a file that does not exist). -/
abbrev FS := String → Option String

/-- The empty file system. -/
def fsEmpty : FS := fun _ => none

/-- `open(name, "w")` followed by writing `content`: the file is truncated. -/
def fsWrite (fs : FS) (name content : String) : FS :=
  fun m => if m = name then some content else fs m

/-- `open(name, "a")` followed by writing `content`: appended to the existing
content (an absent file is created empty first). -/
def fsAppend (fs : FS) (name content : String) : FS :=
  fun m => if m = name then some ((fs name).getD "" ++ content) else fs m

/-- The loop of `write_together` (lines 186-198), threading `oldfilename`. -/
def writeTogetherLoop (pfx : String) : String → List Geometry → FS → FS
  | _, [], fs => fs
  | oldfilename, g :: rest, fs =>
      let filename := pfx ++ getBasename g.source ++ ".xyz"
      if oldfilename = filename then
        writeTogetherLoop pfx oldfilename rest (fsAppend fs filename g.write)
      else
        writeTogetherLoop pfx filename rest (fsWrite fs filename g.write)

/-- `write_together(prefix, geometries)` (lines 181-198): `oldfilename`
starts out empty. -/
def writeTogether (pfx : String) (geometries : List Geometry) (fs : FS) : FS :=
  writeTogetherLoop pfx "" geometries fs

/-- `write_all_together(prefix, geometries)` (lines 201-209): one file opened
in `"w"` mode, every geometry's serialization written in list order. -/
def writeAllTogether (pfx : String) (geometries : List Geometry) (fs : FS) : FS :=
  fsWrite fs (pfx ++ ".xyz") (String.join (geometries.map Geometry.write))

/-- The process exit status as a function of how the extraction ends.
Falling off the end of `__main__` exits with status 0.  Both error paths of
`Geometry.__init__` call `sys.exit()` with no argument (lines 60 and 75),
which raises `SystemExit(None)` and makes the interpreter exit with status 0.
An uncaught `ValueError` from `float()` would exit with status 1. -/
def programExitCode (files : List (String × List String)) : Nat :=
  match runExtractor files with
  | .ok _ => 0
  | .error .badUnits => 0
  | .error .badTokens => 0
  | .error .badFloat => 1

/-- The count carried by the first geometry that the scan can still emit:
in `scan` mode the counter is incremented before the next geometry is built,
in `skip`/`block` mode the geometry under construction already carries `c`. -/
def modeStart : Mode → Nat → Nat
  | .scan, c => c + 1
  | .skip _ _, c => c
  | .block _ _, c => c

set_option maxRecDepth 10000

theorem extract_ok_spec (f : String) (lines : List String) :
    ∀ (c : Nat) (acc : List Geometry) (mode : Mode) (out : List Geometry),
      extract f c acc mode lines = .ok out →
      ∃ new : List Geometry, out = acc ++ new ∧ (∀ g ∈ new, g.source = f) ∧
        new.map Geometry.count = List.range' (modeStart mode c) new.length := by
  induction lines with
  | nil =>
    intro c acc mode out h
    cases mode with
    | scan =>
      simp only [extract, Except.ok.injEq] at h
      exact ⟨[], by simp [h], by simp, by simp⟩
    | skip n units =>
      simp only [extract] at h
      cases hu : unitFactor units with
      | none => simp [hu] at h
      | some fac =>
        simp only [hu, Except.ok.injEq] at h
        exact ⟨[⟨f, c, none, none, []⟩], h.symm, by simp, by simp [modeStart]⟩
    | block fac coords =>
      simp only [extract, Except.ok.injEq] at h
      exact ⟨[⟨f, c, none, none, coords⟩], h.symm, by simp, by simp [modeStart]⟩
  | cons line rest ih =>
    intro c acc mode out h
    cases mode with
    | scan =>
      by_cases h1 : line.trim.startsWith "Output coordinates in angstroms" = true
      · simp only [extract, h1, if_true] at h
        obtain ⟨new, rfl, hsrc, hcnt⟩ := ih (c + 1) acc (.skip 3 "angstrom") out h
        exact ⟨new, rfl, hsrc, by simpa [modeStart] using hcnt⟩
      · by_cases h2 : line.trim.startsWith "Output coordinates in a.u." = true
        · simp only [extract, h1, h2, if_true, if_false] at h
          obtain ⟨new, rfl, hsrc, hcnt⟩ := ih (c + 1) acc (.skip 3 "au") out h
          exact ⟨new, rfl, hsrc, by simpa [modeStart] using hcnt⟩
        · simp only [extract, h1, h2, if_false] at h
          obtain ⟨new, rfl, hsrc, hcnt⟩ := ih c acc .scan out h
          exact ⟨new, rfl, hsrc, hcnt⟩
    | skip n units =>
      by_cases hn : n - 1 = 0
      · cases hu : unitFactor units with
        | none => simp [extract, hn, hu] at h
        | some fac =>
          simp only [extract, hn, hu, if_true] at h
          obtain ⟨new, rfl, hsrc, hcnt⟩ := ih c acc (.block fac []) out h
          exact ⟨new, rfl, hsrc, by simpa [modeStart] using hcnt⟩
      · simp only [extract, hn, if_false] at h
        obtain ⟨new, rfl, hsrc, hcnt⟩ := ih c acc (.skip (n - 1) units) out h
        exact ⟨new, rfl, hsrc, by simpa [modeStart] using hcnt⟩
    | block fac coords =>
      by_cases h0 : (pySplit line).length = 0
      · simp only [extract, h0, if_true] at h
        obtain ⟨new', hout, hsrc, hcnt⟩ := ih c (acc ++ [⟨f, c, none, none, coords⟩]) .scan out h
        refine ⟨⟨f, c, none, none, coords⟩ :: new', by simp [hout], ?_, ?_⟩
        · intro g hg
          rcases List.mem_cons.mp hg with rfl | hg'
          · rfl
          · exact hsrc g hg'
        · simp only [modeStart] at hcnt ⊢
          simp only [List.map_cons, List.length_cons, List.range'_succ]
          exact congrArg (List.cons c) hcnt
      · by_cases h6 : (pySplit line).length = 6
        · cases hx : parsePyFloat ((pySplit line).getD 3 "") with
          | none =>
            simp only [extract, h0, h6, hx, if_true, if_false] at h
            exact Except.noConfusion h
          | some x =>
            cases hy : parsePyFloat ((pySplit line).getD 4 "") with
            | none =>
              simp only [extract, h0, h6, hx, hy, if_true, if_false] at h
              exact Except.noConfusion h
            | some y =>
              cases hz : parsePyFloat ((pySplit line).getD 5 "") with
              | none =>
                simp only [extract, h0, h6, hx, hy, hz, if_true, if_false] at h
                exact Except.noConfusion h
              | some z =>
                simp only [extract, h0, h6, hx, hy, hz, if_true, if_false] at h
                obtain ⟨new, rfl, hsrc, hcnt⟩ :=
                  ih c acc
                    (.block fac (coords ++
                      [formatAtom ((pySplit line).getD 1 "") (x * fac) (y * fac) (z * fac)]))
                    out h
                exact ⟨new, rfl, hsrc, by simpa [modeStart] using hcnt⟩
        · simp [extract, h0, h6] at h

theorem runExtractorAux_ok (files : List (String × List String)) :
    ∀ (geoms out : List Geometry), runExtractorAux geoms files = .ok out →
      ∃ segs : List (List Geometry), out = geoms ++ segs.flatten ∧
        List.Forall₂
          (fun (seg : List Geometry) (fl : String × List String) =>
            (∀ g ∈ seg, g.source = fl.1) ∧
              seg.map Geometry.count = List.range' 1 seg.length)
          segs files := by
  induction files with
  | nil =>
    intro geoms out h
    simp only [runExtractorAux, Except.ok.injEq] at h
    exact ⟨[], by simp [h], List.Forall₂.nil⟩
  | cons fl rest ih =>
    obtain ⟨name, lines⟩ := fl
    intro geoms out h
    simp only [runExtractorAux] at h
    cases ha : appendGeometries geoms name lines with
    | error a => simp [ha] at h
    | ok geoms' =>
      rw [ha] at h
      obtain ⟨segs', rfl, hall⟩ := ih geoms' out h
      obtain ⟨new, rfl, hsrc, hcnt⟩ := extract_ok_spec name lines 0 geoms .scan geoms' ha
      refine ⟨new :: segs', by simp, List.Forall₂.cons ⟨hsrc, ?_⟩ hall⟩
      simpa [modeStart] using hcnt

theorem forall₂_exists_of_mem_left {α β : Type} {R : α → β → Prop} :
    ∀ {l₁ : List α} {l₂ : List β}, List.Forall₂ R l₁ l₂ → ∀ a ∈ l₁, ∃ b, R a b := by
  intro l₁ l₂ h
  induction h with
  | nil => intro a ha; cases ha
  | cons hR _ ih =>
    intro a ha
    rcases List.mem_cons.mp ha with rfl | ha'
    · exact ⟨_, hR⟩
    · exact ih a ha'

theorem splitOnP_headD_takeWhile {α : Type} (p : α → Bool) (l : List α) :
    (l.splitOnP p).headD [] = l.takeWhile (fun a => !p a) := by
  induction l with
  | nil => simp [List.splitOnP_nil]
  | cons a as ih =>
    rw [List.splitOnP_cons]
    by_cases hp : p a = true
    · simp [hp, List.takeWhile_cons]
    · cases hsp : as.splitOnP p with
      | nil => exact absurd hsp (List.splitOnP_ne_nil _ as)
      | cons hd tl =>
        rw [hsp] at ih
        simp [hp, hsp, List.takeWhile_cons, ← ih]

theorem getLastD_map {α β : Type} (f : α → β) :
    ∀ (l : List α) (d : α), (l.map f).getLastD (f d) = f (l.getLastD d) := by
  intro l
  induction l with
  | nil => intro d; rfl
  | cons a as ih =>
    intro d
    simp only [List.map_cons, List.getLastD_cons]
    exact ih a

theorem headD_map {α β : Type} (f : α → β) (l : List α) (d : α) :
    (l.map f).headD (f d) = f (l.headD d) := by
  cases l <;> rfl

theorem getLastD_map_mk (l : List (List Char)) :
    (l.map String.mk).getLastD "" = String.mk (l.getLastD []) :=
  getLastD_map String.mk l []

theorem headD_map_mk (l : List (List Char)) :
    (l.map String.mk).headD "" = String.mk (l.headD []) :=
  headD_map String.mk l []

/-- Modelled from the spec's words for `basename`: take the last
`/`-separated segment of the path, then strip everything from the first `.`
onward (keep the characters up to the first dot). -/
def basenameSpec (p : String) : String :=
  String.mk (((p.toList.splitOnP (fun c => c = '/')).getLastD []).takeWhile (fun c => !(c = '.')))

/-- Claim C8: for every path string, `get_basename` returns the last
`/`-separated segment with everything from the first `.` onward stripped;
in particular `basename("/a/b/structure.out") = "structure"` and
`basename("name.part.xyz") = "name"`. -/
theorem claim_C8_basename_first_dot :
    (∀ p : String, getBasename p = basenameSpec p)
    ∧ getBasename "/a/b/structure.out" = "structure"
    ∧ getBasename "name.part.xyz" = "name" := by
  refine ⟨?_, by with_unfolding_all rfl, by with_unfolding_all rfl⟩
  intro p
  simp only [getBasename, basenameSpec, pySplitOn]
  rw [getLastD_map_mk]
  rw [show ∀ cs : List Char, (String.mk cs).toList = cs from fun _ => rfl]
  rw [headD_map_mk, splitOnP_headD_takeWhile]

/-- Claim C1: an input file consisting of one marker line that after trimming
starts with the angstrom marker phrase, three header lines (whatever their
content: they are skipped unconditionally), the atom line
`1  Li  0  1.0 2.0 3.0` and a terminating blank line yields exactly one
geometry record with atom lines `["Li 1.0 2.0 3.0"]` and sequence index 1. -/
theorem claim_C1_single_angstrom_block (m h1 h2 h3 : String)
    (hm : m.trim.startsWith "Output coordinates in angstroms" = true) :
    appendGeometries [] "f.out" [m, h1, h2, h3, "1  Li  0  1.0 2.0 3.0", ""] =
      .ok [⟨"f.out", 1, none, none, ["Li 1.0 2.0 3.0"]⟩] := by
  simp only [appendGeometries, extract, hm, if_true]
  with_unfolding_all rfl

/-- Witness for claim C1 at a concrete marker line and concrete header
lines (the headers deliberately have token counts other than 0 and 6, which
shows they are skipped rather than parsed). -/
theorem claim_C1_witness :
    appendGeometries [] "f.out"
      ["  Output coordinates in angstroms (scale factor 1.0)",
       "", "geometry junk header", "No. Tag Charge X Y Z",
       "1  Li  0  1.0 2.0 3.0", ""] =
      .ok [⟨"f.out", 1, none, none, ["Li 1.0 2.0 3.0"]⟩] :=
  claim_C1_single_angstrom_block
    "  Output coordinates in angstroms (scale factor 1.0)"
    "" "geometry junk header" "No. Tag Charge X Y Z"
    (by with_unfolding_all rfl)

/-- Claim C3 counterexample: a record whose `lattice` is set to the empty
string is serialized with an empty comment line, not with the
`Lattice=... Properties=...` header the claim predicts for every set
`latticeSpec` (Python truthiness treats `""` like `None` at line 108). -/
theorem claim_C3_counterexample :
    Geometry.write ⟨"f", 1, none, some "", ["H 0.0 0.0 0.0"]⟩ ≠
      "1\nLattice= Properties=species:S:1:pos:R:3\nH 0.0 0.0 0.0\n"
    ∧ Geometry.write ⟨"f", 1, none, some "", ["H 0.0 0.0 0.0"]⟩ = "1\n\nH 0.0 0.0 0.0\n" := by
  refine ⟨by decide, by decide⟩

/-- Claim C3 (amended): serializing a record writes the atom count line,
then a comment line that is empty unless `lattice` holds a non-empty string
(in which case it is the extended-XYZ header), then each atom line verbatim,
every written line followed by exactly one newline. -/
theorem claim_C3_serialization (g : Geometry) :
    Geometry.write g =
      (toString g.coords.length ++ "\n")
      ++ ((if g.lattice.getD "" = "" then ""
           else "Lattice=" ++ g.lattice.getD "" ++ " Properties=species:S:1:pos:R:3") ++ "\n")
      ++ String.join (g.coords.map (fun atom => atom ++ "\n")) := by
  obtain ⟨source, count, sectionLabel, lattice, coords⟩ := g
  cases lattice with
  | none => rfl
  | some s =>
    by_cases hs : s = ""
    · simp [Geometry.write, pyTruthy, hs]
    · simp [Geometry.write, pyTruthy, hs]

/-- Claim C2: a 6-token coordinate line stores token 1 as the element symbol
and tokens 3, 4 and 5, multiplied by the unit factor, as x, y and z; the
factor is `1/1.889725989` for `"au"`, `1.0` for `"angstrom"` and `10.0` for
`"nm"`. -/
theorem claim_C2_token_and_unit_mapping (line f : String) (fac : ℚ) (c : Nat)
    (acc : List Geometry) (coords rest : List String) (x y z : ℚ)
    (h6 : (pySplit line).length = 6)
    (hx : parsePyFloat ((pySplit line).getD 3 "") = some x)
    (hy : parsePyFloat ((pySplit line).getD 4 "") = some y)
    (hz : parsePyFloat ((pySplit line).getD 5 "") = some z) :
    extract f c acc (.block fac coords) (line :: rest) =
      extract f c acc
        (.block fac
          (coords ++ [formatAtom ((pySplit line).getD 1 "") (x * fac) (y * fac) (z * fac)]))
        rest
    ∧ unitFactor "au" = some (1.0 / 1.889725989)
    ∧ unitFactor "angstrom" = some 1.0
    ∧ unitFactor "nm" = some 10.0 := by
  have h0 : ¬((pySplit line).length = 0) := by omega
  refine ⟨?_, by with_unfolding_all rfl, by with_unfolding_all rfl, by with_unfolding_all rfl⟩
  simp only [extract, h0, h6, hx, hy, hz, if_true, if_false]
  simp

/-- Witness for claim C2 at the concrete line `1  Li  0  1.0 2.0 3.0` with
unit factor 1. -/
theorem claim_C2_witness :
    extract "f" 0 [] (.block 1 []) ["1  Li  0  1.0 2.0 3.0"] =
      extract "f" 0 []
        (.block 1
          (([] : List String) ++
            [formatAtom ((pySplit "1  Li  0  1.0 2.0 3.0").getD 1 "")
              ((1 : ℚ) * 1) ((2 : ℚ) * 1) ((3 : ℚ) * 1)]))
        []
    ∧ unitFactor "au" = some (1.0 / 1.889725989)
    ∧ unitFactor "angstrom" = some 1.0
    ∧ unitFactor "nm" = some 10.0 :=
  claim_C2_token_and_unit_mapping "1  Li  0  1.0 2.0 3.0" "f" 1 0 [] [] [] 1 2 3
    (by with_unfolding_all rfl) (by with_unfolding_all rfl)
    (by with_unfolding_all rfl) (by with_unfolding_all rfl)

/-- Claim C4: in any successful run, the geometry list decomposes into one
segment per input file, in file order, and within each segment the sequence
indices are exactly 1, 2, 3, ...: the counter restarts at 1 for every new
file and increments by 1 per detected marker. -/
theorem claim_C4_sequence_index_per_file (files : List (String × List String))
    (out : List Geometry) (h : runExtractor files = .ok out) :
    ∃ segs : List (List Geometry), out = segs.flatten ∧ segs.length = files.length ∧
      ∀ seg ∈ segs, seg.map Geometry.count = List.range' 1 seg.length := by
  obtain ⟨segs, hout, hall⟩ := runExtractorAux_ok files [] out h
  refine ⟨segs, by simpa using hout, hall.length_eq, ?_⟩
  intro seg hseg
  obtain ⟨fl, hR⟩ := forall₂_exists_of_mem_left hall seg hseg
  exact hR.2

/-- Witness for claim C4: a concrete two-file run (the first file has two
marked blocks, the second has one). -/
theorem claim_C4_witness :
    ∃ segs : List (List Geometry),
      [(⟨"a.out", 1, none, none, ["Li 1.0 2.0 3.0"]⟩ : Geometry),
       ⟨"a.out", 2, none, none, ["Li 4.0 5.0 6.0"]⟩,
       ⟨"b.out", 1, none, none, ["H 0.0 0.0 0.0"]⟩] = segs.flatten
      ∧ segs.length =
          ([("a.out",
             ["Output coordinates in angstroms", "h", "h", "h", "1  Li  0  1.0 2.0 3.0", "",
              "Output coordinates in angstroms", "h", "h", "h", "1  Li  0  4.0 5.0 6.0", ""]),
            ("b.out",
             ["Output coordinates in a.u.", "h", "h", "h", "1  H  0  0 0 0", ""])] :
            List (String × List String)).length
      ∧ ∀ seg ∈ segs, seg.map Geometry.count = List.range' 1 seg.length :=
  claim_C4_sequence_index_per_file
    [("a.out",
      ["Output coordinates in angstroms", "h", "h", "h", "1  Li  0  1.0 2.0 3.0", "",
       "Output coordinates in angstroms", "h", "h", "h", "1  Li  0  4.0 5.0 6.0", ""]),
     ("b.out",
      ["Output coordinates in a.u.", "h", "h", "h", "1  H  0  0 0 0", ""])]
    [⟨"a.out", 1, none, none, ["Li 1.0 2.0 3.0"]⟩,
     ⟨"a.out", 2, none, none, ["Li 4.0 5.0 6.0"]⟩,
     ⟨"b.out", 1, none, none, ["H 0.0 0.0 0.0"]⟩]
    (by with_unfolding_all rfl)

/-- Claim C10: the record list of a successful run is grouped contiguously by
source file: it is the concatenation, in input order, of one segment per
file, and every record in a file's segment carries that file's name as its
source. -/
theorem claim_C10_records_grouped_by_source (files : List (String × List String))
    (out : List Geometry) (h : runExtractor files = .ok out) :
    ∃ segs : List (List Geometry), out = segs.flatten ∧
      List.Forall₂
        (fun (seg : List Geometry) (fl : String × List String) => ∀ g ∈ seg, g.source = fl.1)
        segs files := by
  obtain ⟨segs, hout, hall⟩ := runExtractorAux_ok files [] out h
  exact ⟨segs, by simpa using hout, hall.imp (fun _ _ h => h.1)⟩


/-- Witness for claim C10: the same concrete two-file run. -/
theorem claim_C10_witness :
    ∃ segs : List (List Geometry),
      [(⟨"a.out", 1, none, none, ["Li 1.0 2.0 3.0"]⟩ : Geometry),
       ⟨"a.out", 2, none, none, ["Li 4.0 5.0 6.0"]⟩,
       ⟨"b.out", 1, none, none, ["H 0.0 0.0 0.0"]⟩] = segs.flatten
      ∧ List.Forall₂
          (fun (seg : List Geometry) (fl : String × List String) => ∀ g ∈ seg, g.source = fl.1)
          segs
          [("a.out",
            ["Output coordinates in angstroms", "h", "h", "h", "1  Li  0  1.0 2.0 3.0", "",
             "Output coordinates in angstroms", "h", "h", "h", "1  Li  0  4.0 5.0 6.0", ""]),
           ("b.out",
            ["Output coordinates in a.u.", "h", "h", "h", "1  H  0  0 0 0", ""])] :=
  claim_C10_records_grouped_by_source
    [("a.out",
      ["Output coordinates in angstroms", "h", "h", "h", "1  Li  0  1.0 2.0 3.0", "",
       "Output coordinates in angstroms", "h", "h", "h", "1  Li  0  4.0 5.0 6.0", ""]),
     ("b.out",
      ["Output coordinates in a.u.", "h", "h", "h", "1  H  0  0 0 0", ""])]
    [⟨"a.out", 1, none, none, ["Li 1.0 2.0 3.0"]⟩,
     ⟨"a.out", 2, none, none, ["Li 4.0 5.0 6.0"]⟩,
     ⟨"b.out", 1, none, none, ["H 0.0 0.0 0.0"]⟩]
    (by with_unfolding_all rfl)

/-- Claim C5: in the Together fan-out, a record whose output filename equals
the previous record's filename appends to that file, a record whose filename
differs opens it in overwrite mode; consequently on the interleaved record
list A, B, A (distinct basenames) the returning A record truncates A's file,
which afterwards holds only that record's serialization, not the
concatenation of both A records. -/
theorem claim_C5_together_overwrite_semantics :
    (∀ (pfx old : String) (g : Geometry) (rest : List Geometry) (fs : FS),
        old = pfx ++ getBasename g.source ++ ".xyz" →
        writeTogetherLoop pfx old (g :: rest) fs =
          writeTogetherLoop pfx old rest
            (fsAppend fs (pfx ++ getBasename g.source ++ ".xyz") g.write))
    ∧ (∀ (pfx old : String) (g : Geometry) (rest : List Geometry) (fs : FS),
        old ≠ pfx ++ getBasename g.source ++ ".xyz" →
        writeTogetherLoop pfx old (g :: rest) fs =
          writeTogetherLoop pfx (pfx ++ getBasename g.source ++ ".xyz") rest
            (fsWrite fs (pfx ++ getBasename g.source ++ ".xyz") g.write))
    ∧ writeTogether "" [⟨"A.out", 1, none, none, ["H 1.0 1.0 1.0"]⟩,
        ⟨"B.out", 1, none, none, ["O 2.0 2.0 2.0"]⟩,
        ⟨"A.out", 2, none, none, ["H 3.0 3.0 3.0"]⟩] fsEmpty "A.xyz" =
        some (Geometry.write ⟨"A.out", 2, none, none, ["H 3.0 3.0 3.0"]⟩)
    ∧ some (Geometry.write (⟨"A.out", 2, none, none, ["H 3.0 3.0 3.0"]⟩ : Geometry)) ≠
        some (Geometry.write (⟨"A.out", 1, none, none, ["H 1.0 1.0 1.0"]⟩ : Geometry) ++
          Geometry.write (⟨"A.out", 2, none, none, ["H 3.0 3.0 3.0"]⟩ : Geometry)) := by
  refine ⟨?_, ?_, by with_unfolding_all rfl, by decide⟩
  · intro pfx old g rest fs hold
    simp [writeTogetherLoop, ← hold]
  · intro pfx old g rest fs hold
    simp [writeTogetherLoop, hold]

/-- Witness for claim C5's two conditional parts, at a concrete record and
file system: the same-filename case appends, the changed-filename case
overwrites. -/
theorem claim_C5_witness :
    (writeTogetherLoop "" "A.xyz" [⟨"A.out", 2, none, none, ["H 3.0 3.0 3.0"]⟩] fsEmpty =
      writeTogetherLoop "" "A.xyz" []
        (fsAppend fsEmpty ("" ++ getBasename "A.out" ++ ".xyz")
          (Geometry.write ⟨"A.out", 2, none, none, ["H 3.0 3.0 3.0"]⟩)))
    ∧ (writeTogetherLoop "" "" [⟨"A.out", 1, none, none, ["H 1.0 1.0 1.0"]⟩] fsEmpty =
      writeTogetherLoop "" ("" ++ getBasename "A.out" ++ ".xyz") []
        (fsWrite fsEmpty ("" ++ getBasename "A.out" ++ ".xyz")
          (Geometry.write ⟨"A.out", 1, none, none, ["H 1.0 1.0 1.0"]⟩))) :=
  ⟨claim_C5_together_overwrite_semantics.1 "" "A.xyz"
      ⟨"A.out", 2, none, none, ["H 3.0 3.0 3.0"]⟩ [] fsEmpty (by decide),
   (claim_C5_together_overwrite_semantics.2.1) "" ""
      ⟨"A.out", 1, none, none, ["H 1.0 1.0 1.0"]⟩ [] fsEmpty (by decide)⟩

/-- Claim C6: inside a coordinate block, a non-blank line whose token count
is neither 0 nor 6 aborts the whole program (error result, not a per-record
exception); an unrecognized unit string aborts likewise; and once a file's
scan aborts, the whole multi-file run returns that error no matter which
files were still waiting to be examined. -/
theorem claim_C6_malformed_line_aborts_run :
    (∀ (line : String) (rest : List String) (f : String) (c : Nat)
        (acc : List Geometry) (fac : ℚ) (coords : List String),
        (pySplit line).length ≠ 0 → (pySplit line).length ≠ 6 →
        extract f c acc (.block fac coords) (line :: rest) = .error .badTokens)
    ∧ (∀ (units line : String) (rest : List String) (f : String) (c : Nat)
        (acc : List Geometry),
        unitFactor units = none →
        extract f c acc (.skip 1 units) (line :: rest) = .error .badUnits)
    ∧ (∀ (geoms : List Geometry) (name : String) (lines : List String)
        (files₂ : List (String × List String)) (a : Abort),
        appendGeometries geoms name lines = .error a →
        runExtractorAux geoms ((name, lines) :: files₂) = .error a) := by
  refine ⟨?_, ?_, ?_⟩
  · intro line rest f c acc fac coords h0 h6
    simp [extract, h0, h6]
  · intro units line rest f c acc hu
    simp [extract, hu]
  · intro geoms name lines files₂ a ha
    simp [runExtractorAux, ha]

/-- Witness for claim C6: a 5-token line aborts the block, the unit string
`"bohr"` aborts the constructor, and a file whose scan aborts makes the whole
run abort even though another input file was still queued. -/
theorem claim_C6_witness :
    (extract "f" 1 [] (.block 1 []) ["1 Li 0 1.0 2.0"] = .error .badTokens)
    ∧ (extract "f" 1 [] (.skip 1 "bohr") ["x"] = .error .badUnits)
    ∧ runExtractorAux []
        [("bad.out", ["Output coordinates in angstroms", "h", "h", "h", "1 Li 0 1.0 2.0"]),
         ("later.out", ["Output coordinates in angstroms", "h", "h", "h", "1  H  0  0 0 0", ""])] =
        .error .badTokens :=
  ⟨claim_C6_malformed_line_aborts_run.1 "1 Li 0 1.0 2.0" [] "f" 1 [] 1 []
      (by decide) (by decide),
   claim_C6_malformed_line_aborts_run.2.1 "bohr" "x" [] "f" 1 [] (by with_unfolding_all rfl),
   claim_C6_malformed_line_aborts_run.2.2 []
      "bad.out" ["Output coordinates in angstroms", "h", "h", "h", "1 Li 0 1.0 2.0"]
      [("later.out", ["Output coordinates in angstroms", "h", "h", "h", "1  H  0  0 0 0", ""])]
      .badTokens (by with_unfolding_all rfl)⟩

/-- Claim C7 evaluation: on valid input the process exits with status 0, but
on the malformed-line abort path it also exits with status 0, because
`sys.exit()` is called with no argument (`SystemExit(None)` means success);
the claim's non-zero exit status does not hold on the code. -/
theorem claim_C7_abort_exits_with_status_zero :
    runExtractor
        [("bad.out", ["Output coordinates in angstroms", "h", "h", "h", "1 Li 0 1.0 2.0"])] =
      .error .badTokens
    ∧ programExitCode
        [("bad.out", ["Output coordinates in angstroms", "h", "h", "h", "1 Li 0 1.0 2.0"])] = 0
    ∧ programExitCode
        [("good.out",
          ["Output coordinates in angstroms", "h", "h", "h", "1  Li  0  1.0 2.0 3.0", ""])] = 0 := by
  refine ⟨by with_unfolding_all rfl, by with_unfolding_all rfl, by with_unfolding_all rfl⟩

/-- Claim C9: the All-together strategy writes the single file
`<prefix>.xyz` with every record's serialization concatenated in list order
(overwriting whatever the file held); with two one-atom geometries and
prefix `out_` the file `out_.xyz` holds exactly the two concatenated
three-line serializations. -/
theorem claim_C9_all_together_single_file :
    (∀ (pfx : String) (geometries : List Geometry) (fs : FS),
        writeAllTogether pfx geometries fs (pfx ++ ".xyz") =
          some (String.join (geometries.map Geometry.write)))
    ∧ writeAllTogether "out_"
        [⟨"a.out", 1, none, none, ["H 0.0 0.0 0.0"]⟩,
         ⟨"b.out", 1, none, none, ["O 1.0 0.0 0.0"]⟩] fsEmpty "out_.xyz" =
        some ("1\n\nH 0.0 0.0 0.0\n" ++ "1\n\nO 1.0 0.0 0.0\n") := by
  refine ⟨?_, by decide⟩
  intro pfx geometries fs
  simp [writeAllTogether, fsWrite]

end NWGeom
